import Mathlib

/-!
Shallow embedding of the ABI-driven interaction layer of
`app/streamlit_app.py` (type coercion, result normalization, deployment
recording, and the deploy / interact pipelines), together with theorems
that settle the specification claims against it.

Modelling conventions:
* Python strings are Lean `String`s; character-level operations
  (`lower`, `strip`, `startswith`, `split`) are modelled over ASCII, which
  covers every value the claims mention.
* Python `int` is Lean `Int` (arbitrary precision in both).
* Raw byte strings (`HexBytes`) are `List Nat`, one entry per byte.
* External collaborators that are not part of the repository are
  parameters: `Web3.to_checksum_address` is passed in as a function
  `String → Except String String` (it can raise), and the outcome of each
  blockchain-client call in the write pipeline is a field of `DeployEnv`.
-/

namespace PolyPlat

/-! ## Python string primitives -/

/-- ASCII whitespace as recognised by Python `str.strip` and `int()`:
space, tab, newline, carriage return, vertical tab, form feed.
(Python additionally strips non-ASCII Unicode whitespace, which no value
in this development contains.) -/
def isPyWs (c : Char) : Bool :=
  c == '\t' || c == Char.ofNat 11 || c == '\n' || c == Char.ofNat 12 ||
  c == '\r' || c == ' '

/-- Characters of a string with leading and trailing Python whitespace
removed, as `str.strip()` does. -/
def pyStripL (cs : List Char) : List Char :=
  ((cs.dropWhile isPyWs).reverse.dropWhile isPyWs).reverse

/-- Python `str.strip()`. -/
def pyStrip (s : String) : String := ⟨pyStripL s.toList⟩

/-- Test whether `p` is a leading segment of `cs` (character lists). -/
def strStarts : List Char → List Char → Bool
  | [], _ => true
  | _ :: _, [] => false
  | p :: ps, c :: cs => p == c && strStarts ps cs

/-- Python `s.startswith(p)`. -/
def pyStartsWith (s p : String) : Bool := strStarts p.toList s.toList

/-- Python `s.endswith(p)`. -/
def pyEndsWith (s p : String) : Bool :=
  strStarts p.toList.reverse s.toList.reverse

/-- ASCII lower-casing of one character, as Python `str.lower` acts on the
ASCII range (no value in this development contains a non-ASCII cased
letter). -/
def asciiLower (c : Char) : Char :=
  if 'A' ≤ c && c ≤ 'Z' then Char.ofNat (c.toNat + 32) else c

/-- Python `str.lower()` over the ASCII range. -/
def pyLower (s : String) : String := ⟨s.toList.map asciiLower⟩

/-- Python `s[:-2]`: the string with its last two characters removed. -/
def pyDropLast2 (s : String) : String := ⟨(s.toList.reverse.drop 2).reverse⟩

/-- Split a character list at every occurrence of `sep`, keeping empty
chunks, as Python `str.split(sep)` does for a one-character separator. -/
def splitOnChar (sep : Char) : List Char → List (List Char)
  | [] => [[]]
  | c :: cs =>
    let rest := splitOnChar sep cs
    if c == sep then [] :: rest
    else match rest with
      | [] => [[c]]
      | chunk :: rest2 => (c :: chunk) :: rest2

/-- The comma path of the array coercion:
`[x.strip() for x in raw.split(",") if x.strip() != ""]`. -/
def commaTokens (raw : String) : List String :=
  (((splitOnChar ',' raw.toList).map pyStripL).filter (· ≠ [])).map
    (fun cs => (⟨cs⟩ : String))

/-! ## Python `int()` over decimal strings -/

/-- Value and validity of the digit body of a Python integer literal:
digits in base 10 with single underscores allowed between digits
(`"1_000"` is valid, `"_1"`, `"1_"`, `"1__0"` are not). Returns `none`
when the body is malformed. -/
def pyIntDigits : List Char → Option Nat
  | [] => none
  | c :: cs =>
    if c.isDigit then pyIntGo cs (c.toNat - 48) else none
where
  /-- Continuation after at least one digit has been read: an underscore
  must be followed by a digit, otherwise only digits may continue. -/
  pyIntGo : List Char → Nat → Option Nat
    | [], acc => some acc
    | c :: cs, acc =>
      if c == '_' then
        match cs with
        | c2 :: cs2 =>
          if c2.isDigit then pyIntGo cs2 (10 * acc + (c2.toNat - 48)) else none
        | [] => none
      else if c.isDigit then pyIntGo cs (10 * acc + (c.toNat - 48)) else none

/-- Python `int(s)` for a base-10 string: surrounding whitespace is
stripped, an optional single sign is allowed, then a digit body.
Raises `ValueError` (here `.error ()`) on anything else. -/
def pyInt (s : String) : Except Unit Int :=
  match pyStripL s.toList with
  | '+' :: cs =>
    match pyIntDigits cs with
    | some n => .ok (n : Int)
    | none => .error ()
  | '-' :: cs =>
    match pyIntDigits cs with
    | some n => .ok (-(n : Int))
    | none => .error ()
  | cs =>
    match pyIntDigits cs with
    | some n => .ok (n : Int)
    | none => .error ()

/-- Decimal digit character for `d ≤ 9`. -/
def digitChar (d : Nat) : Char :=
  if d = 0 then '0' else if d = 1 then '1' else if d = 2 then '2'
  else if d = 3 then '3' else if d = 4 then '4' else if d = 5 then '5'
  else if d = 6 then '6' else if d = 7 then '7' else if d = 8 then '8'
  else '9'

/-- Canonical decimal digits of a natural number, most significant first,
with `"0"` for zero — exactly the digits Python `str()` prints for a
non-negative integer. -/
def natChars (n : Nat) : List Char :=
  if n = 0 then ['0'] else ((Nat.digits 10 n).map digitChar).reverse

/-- Python `str()` of an integer: canonical decimal, `-`-prefixed when
negative. -/
def pyStrOfInt (i : Int) : String :=
  if i < 0 then "-" ++ (⟨natChars i.natAbs⟩ : String) else ⟨natChars i.toNat⟩

/-- Numeric value of a big-endian list of decimal digit characters. -/
def parseNat (cs : List Char) : Nat :=
  cs.foldl (fun a c => 10 * a + (c.toNat - 48)) 0

/-! ## Hex rendering of byte strings (`HexBytes.hex()`) -/

/-- Lower-case hexadecimal digit for `d ≤ 15`. -/
def hexDigitChar (d : Nat) : Char :=
  if d < 10 then digitChar d
  else if d = 10 then 'a' else if d = 11 then 'b' else if d = 12 then 'c'
  else if d = 13 then 'd' else if d = 14 then 'e' else 'f'

/-- Two lower-case hex digits of one byte. -/
def byteHex (b : Nat) : List Char :=
  [hexDigitChar (b / 16 % 16), hexDigitChar (b % 16)]

/-- The `hexbytes` rendering `HexBytes(bs).hex()`: `0x` followed by two
lower-case hex digits per byte. -/
def hexOfBytes (bs : List Nat) : String :=
  "0x" ++ (⟨(bs.map byteHex).flatten⟩ : String)

/-! ## Python `json.loads`

The array branch of the coercion engine feeds a raw string to
`json.loads` when it starts with `[`. The parser below follows the JSON
grammar as Python implements it in strict mode: literal control
characters inside strings are rejected, `NaN` / `Infinity` / `-Infinity`
are accepted, leading zeros are not consumed beyond the first `0`, and
the whole document must be consumed. -/

/-- A parsed JSON value as Python materialises it. A number with a
fraction or exponent becomes a Python `float`; its value is irrelevant to
every modelled claim (no reachable, claim-relevant path converts one), so
the token text is kept instead of an IEEE value. Python collapses
duplicate object keys (last wins); object members are kept here as the
parsed sequence, which no modelled claim observes. -/
inductive JVal where
  | jnull
  | jbool (b : Bool)
  | jint (n : Int)
  | jfloat (lit : String)
  | jstr (s : String)
  | jarr (xs : List JVal)
  | jobj (kvs : List (String × JVal))

/-- JSON whitespace (space, tab, newline, carriage return). -/
def jIsWs (c : Char) : Bool := c == '\t' || c == ' ' || c == '\r' || c == '\n'

/-- Drop leading JSON whitespace. -/
def jSkipWs : List Char → List Char
  | c :: cs => if jIsWs c then jSkipWs cs else c :: cs
  | [] => []

/-- Value of one hexadecimal digit character. -/
def jHexVal (c : Char) : Option Nat :=
  if 'a' ≤ c && c ≤ 'f' then some (c.toNat - 87)
  else if 'A' ≤ c && c ≤ 'F' then some (c.toNat - 55)
  else if '0' ≤ c && c ≤ '9' then some (c.toNat - 48)
  else none

/-- Value of a four-hex-digit escape. -/
def jHex4 (a b c d : Char) : Option Nat := do
  let va ← jHexVal a
  let vb ← jHexVal b
  let vc ← jHexVal c
  let vd ← jHexVal d
  pure (((va * 16 + vb) * 16 + vc) * 16 + vd)

/-- Single-character JSON escapes. -/
def jEsc (c : Char) : Option Char :=
  match c.toNat with
  | 34 => some '"'
  | 92 => some '\\'
  | 47 => some '/'
  | 98 => some (Char.ofNat 8)
  | 102 => some (Char.ofNat 12)
  | 110 => some '\n'
  | 114 => some '\r'
  | 116 => some '\t'
  | _ => none

/-- Read the body of a JSON string after the opening quote. Strict mode:
a literal control character is an error. A `\uXXXX` high surrogate
followed by a `\uXXXX` low surrogate combines into one scalar; a lone
surrogate (which Python would keep as a lone UTF-16 unit) degrades to
`Char.ofNat`, and never occurs in a claim-relevant input. -/
def jReadStr (acc : List Char) (cs : List Char) : Except Unit (String × List Char) :=
  match cs with
  | '"' :: r => .ok ((⟨acc.reverse⟩ : String), r)
  | '\\' :: 'u' :: a :: b :: c :: d :: '\\' :: 'u' :: a2 :: b2 :: c2 :: d2 :: r2 =>
    match jHex4 a b c d with
    | none => .error ()
    | some n =>
      if 55296 ≤ n && n ≤ 56319 then
        match jHex4 a2 b2 c2 d2 with
        | some m =>
          if 56320 ≤ m && m ≤ 57343 then
            jReadStr (Char.ofNat (65536 + (n - 55296) * 1024 + (m - 56320)) :: acc) r2
          else jReadStr (Char.ofNat n :: acc) ('\\' :: 'u' :: a2 :: b2 :: c2 :: d2 :: r2)
        | none => jReadStr (Char.ofNat n :: acc) ('\\' :: 'u' :: a2 :: b2 :: c2 :: d2 :: r2)
      else jReadStr (Char.ofNat n :: acc) ('\\' :: 'u' :: a2 :: b2 :: c2 :: d2 :: r2)
  | '\\' :: 'u' :: a :: b :: c :: d :: r =>
    match jHex4 a b c d with
    | none => .error ()
    | some n => jReadStr (Char.ofNat n :: acc) r
  | '\\' :: e :: r =>
    match jEsc e with
    | some ch => jReadStr (ch :: acc) r
    | none => .error ()
  | c :: r =>
    if c.toNat < 32 then .error () else jReadStr (c :: acc) r
  | [] => .error ()
termination_by cs.length
decreasing_by all_goals simp <;> omega

/-- Longest leading run of decimal digits. -/
def takeDigitRun : List Char → List Char × List Char
  | c :: cs =>
    if c.isDigit then
      let (ds, r) := takeDigitRun cs
      (c :: ds, r)
    else ([], c :: cs)
  | [] => ([], [])

/-- Read the optional exponent part of a JSON number: `none` when no
exponent marker is present, the exponent characters when it is
well-formed, an error when `e` is not followed by digits. -/
def jReadExp : List Char → Except Unit (Option (List Char) × List Char)
  | 'e' :: r => jReadExpTail 'e' r
  | 'E' :: r => jReadExpTail 'E' r
  | cs => .ok (none, cs)
where
  jReadExpTail (e : Char) (r : List Char) : Except Unit (Option (List Char) × List Char) :=
    let (sgn, r1) : List Char × List Char :=
      match r with
      | '+' :: r2 => (['+'], r2)
      | '-' :: r2 => (['-'], r2)
      | _ => ([], r)
    match takeDigitRun r1 with
    | ([], _) => .error ()
    | (ds, r2) => .ok (some (e :: (sgn ++ ds)), r2)

/-- Read a JSON number. An integer without fraction or exponent becomes a
Python `int`; otherwise a `float` token. After a leading `0` no further
digits are consumed (JSON forbids leading zeros), so `01` leaves `1`
unconsumed and fails at the enclosing level, as Python does. -/
def jReadNum (cs : List Char) : Except Unit (JVal × List Char) :=
  let (sgn, cs1) : List Char × List Char :=
    match cs with
    | '-' :: r => (['-'], r)
    | _ => ([], cs)
  match cs1 with
  | c :: r =>
    if c.isDigit then
      let (ids, r1) : List Char × List Char :=
        if c == '0' then (['0'], r)
        else
          let (ds, rr) := takeDigitRun r
          (c :: ds, rr)
      match r1 with
      | '.' :: r2 =>
        match takeDigitRun r2 with
        | ([], _) => .error ()
        | (fds, r3) =>
          match jReadExp r3 with
          | .error _ => .error ()
          | .ok (oe, r4) =>
            let lit := sgn ++ ids ++ '.' :: fds ++ (oe.getD [])
            .ok (.jfloat ⟨lit⟩, r4)
      | _ =>
        match jReadExp r1 with
        | .error _ => .error ()
        | .ok (none, r2) =>
          let v : Int := (parseNat ids : Nat)
          .ok (.jint (if sgn = [] then v else -v), r2)
        | .ok (some ecs, r2) => .ok (.jfloat ⟨sgn ++ ids ++ ecs⟩, r2)
    else .error ()
  | [] => .error ()

mutual

/-- Read one JSON value. `fuel` decreases on every call and starts above
the input length, so it never runs out on a genuine input. -/
def jReadVal (fuel : Nat) (cs : List Char) : Except Unit (JVal × List Char) :=
  match fuel with
  | 0 => .error ()
  | fuel + 1 =>
    match jSkipWs cs with
    | 'n' :: 'u' :: 'l' :: 'l' :: more => .ok (.jnull, more)
    | 't' :: 'r' :: 'u' :: 'e' :: more => .ok (.jbool true, more)
    | 'f' :: 'a' :: 'l' :: 's' :: 'e' :: more => .ok (.jbool false, more)
    | 'N' :: 'a' :: 'N' :: more => .ok (.jfloat "NaN", more)
    | 'I' :: 'n' :: 'f' :: 'i' :: 'n' :: 'i' :: 't' :: 'y' :: more =>
      .ok (.jfloat "Infinity", more)
    | '-' :: 'I' :: 'n' :: 'f' :: 'i' :: 'n' :: 'i' :: 't' :: 'y' :: more =>
      .ok (.jfloat "-Infinity", more)
    | '"' :: r =>
      match jReadStr [] r with
      | .ok (s, r2) => .ok (.jstr s, r2)
      | .error _ => .error ()
    | '[' :: r =>
      match jSkipWs r with
      | ']' :: r2 => .ok (.jarr [], r2)
      | cs2 =>
        match jReadElems fuel cs2 with
        | .ok (xs, r2) => .ok (.jarr xs, r2)
        | .error _ => .error ()
    | '{' :: r =>
      match jSkipWs r with
      | '}' :: r2 => .ok (.jobj [], r2)
      | cs2 =>
        match jReadMembers fuel cs2 with
        | .ok (kvs, r2) => .ok (.jobj kvs, r2)
        | .error _ => .error ()
    | c :: r => if c == '-' || c.isDigit then jReadNum (c :: r) else .error ()
    | [] => .error ()

/-- Read one-or-more comma-separated array elements up to `]`. -/
def jReadElems (fuel : Nat) (cs : List Char) :
    Except Unit (List JVal × List Char) :=
  match fuel with
  | 0 => .error ()
  | fuel + 1 =>
    match jReadVal fuel cs with
    | .error _ => .error ()
    | .ok (v, r) =>
      match jSkipWs r with
      | ',' :: r2 =>
        match jReadElems fuel r2 with
        | .ok (vs, r3) => .ok (v :: vs, r3)
        | .error _ => .error ()
      | ']' :: r2 => .ok ([v], r2)
      | _ => .error ()

/-- Read one-or-more `"key": value` members up to `\x7d`. -/
def jReadMembers (fuel : Nat) (cs : List Char) :
    Except Unit (List (String × JVal) × List Char) :=
  match fuel with
  | 0 => .error ()
  | fuel + 1 =>
    match jSkipWs cs with
    | '"' :: r =>
      match jReadStr [] r with
      | .error _ => .error ()
      | .ok (k, r1) =>
        match jSkipWs r1 with
        | ':' :: r2 =>
          match jReadVal fuel r2 with
          | .error _ => .error ()
          | .ok (v, r3) =>
            match jSkipWs r3 with
            | ',' :: r4 =>
              match jReadMembers fuel r4 with
              | .ok (kvs, r5) => .ok ((k, v) :: kvs, r5)
              | .error _ => .error ()
            | c :: r4 =>
              if c == Char.ofNat 125 then .ok ([(k, v)], r4) else .error ()
            | _ => .error ()
        | _ => .error ()
    | _ => .error ()

end

/-- Python `json.loads(s)`: parse one document and require the rest of
the input to be whitespace. -/
def jsonLoads (s : String) : Except Unit JVal :=
  match jReadVal (s.toList.length + 1) s.toList with
  | .error _ => .error ()
  | .ok (v, r) =>
    match jSkipWs r with
    | [] => .ok v
    | _ => .error ()

/-! ## Python `repr` / `str` text rendering -/

/-- The single-quote character, written by code point. -/
def squote : Char := Char.ofNat 39

/-- The double-quote character. -/
def dquote : Char := '"'

/-- A `\xHH` escape. -/
def hexEsc2 (n : Nat) : List Char :=
  ['\\', 'x', hexDigitChar (n / 16 % 16), hexDigitChar (n % 16)]

/-- Rendering of one character inside a Python string repr quoted by `q`.
Backslash, the quote, newline, carriage return and tab are escaped; other
control characters (and DEL) become `\xHH`; printable characters stand
for themselves. (Python also escapes non-printable characters above the
ASCII range, which no modelled value contains.) -/
def strReprChar (q c : Char) : List Char :=
  if c == '\\' then ['\\', '\\']
  else if c == q then ['\\', q]
  else if c == '\n' then ['\\', 'n']
  else if c == '\r' then ['\\', 'r']
  else if c == '\t' then ['\\', 't']
  else if c.toNat < 32 || c.toNat == 127 then hexEsc2 c.toNat
  else [c]

/-- Python `repr` of a string: single-quoted, or double-quoted when the
string contains a single quote but no double quote. -/
def strRepr (s : String) : String :=
  let q := if s.toList.contains squote && !s.toList.contains dquote
           then dquote else squote
  ⟨q :: (s.toList.map (strReprChar q)).flatten ++ [q]⟩

/-- Rendering of one byte inside a Python bytes repr quoted by `q`. -/
def bytesReprChar (q : Char) (b : Nat) : List Char :=
  if b == 92 then ['\\', '\\']
  else if b == q.toNat then ['\\', q]
  else if b == 10 then ['\\', 'n']
  else if b == 13 then ['\\', 'r']
  else if b == 9 then ['\\', 't']
  else if 32 ≤ b && b < 127 then [Char.ofNat b]
  else hexEsc2 b

/-- Python `repr` (and `str`) of a bytes value: `b` followed by the
quoted escaped bytes, with the same quote choice rule as strings. -/
def bytesRepr (bs : List Nat) : String :=
  let q := if bs.contains 39 && !bs.contains 34 then dquote else squote
  ⟨'b' :: q :: (bs.map (bytesReprChar q)).flatten ++ [q]⟩

mutual

/-- Python `repr` of a parsed JSON value. The stored token of a `float`
stands in for Python canonical float formatting, which no modelled
claim observes. -/
def pyReprJ : JVal → String
  | .jnull => "None"
  | .jbool b => if b then "True" else "False"
  | .jint n => pyStrOfInt n
  | .jfloat lit => lit
  | .jstr s => strRepr s
  | .jarr xs => "[" ++ String.intercalate ", " (pyReprJList xs) ++ "]"
  | .jobj kvs => "\x7b" ++ String.intercalate ", " (pyReprJMembers kvs) ++ "\x7d"

/-- Reprs of the elements of a JSON array. -/
def pyReprJList : List JVal → List String
  | [] => []
  | x :: xs => pyReprJ x :: pyReprJList xs

/-- Reprs of the members of a JSON object. -/
def pyReprJMembers : List (String × JVal) → List String
  | [] => []
  | (k, v) :: kvs => (strRepr k ++ ": " ++ pyReprJ v) :: pyReprJMembers kvs

end

/-- Python `str()` of a parsed JSON value, as applied per element by the
`string`-base array coercion: a string passes through, everything else
renders as its repr. -/
def jvalStr (x : JVal) : String :=
  match x with
  | .jstr s => s
  | _ => pyReprJ x

/-! ## Python runtime values

`Val` covers the values the interaction layer passes around: integers,
strings, booleans, raw byte strings (`HexBytes`), lists, tuples and
dicts. Dict keys are themselves values, as in Python, where any hashable
object can key a dict (`HexBytes` and tuples included). Python `None`
and floats are omitted: no claim mentions them and no modelled code path
produces them. -/

inductive Val where
  | int (n : Int)
  | str (s : String)
  | bool (b : Bool)
  | bytes (bs : List Nat)
  | vlist (xs : List Val)
  | vtuple (xs : List Val)
  | vdict (kvs : List (Val × Val))

mutual

/-- The result normalizer `decode_hexbytes` of the source: a `HexBytes`
leaf becomes its `0x…` hex text, lists and tuples are normalized
element-wise into lists, dict values are normalized with keys kept as
they are, and every other value passes through. -/
def decode_hexbytes : Val → Val
  | .bytes bs => .str (hexOfBytes bs)
  | .vlist xs => .vlist (decodeL xs)
  | .vtuple xs => .vlist (decodeL xs)
  | .vdict kvs => .vdict (decodeP kvs)
  | v => v

/-- Element-wise normalization of a sequence. -/
def decodeL : List Val → List Val
  | [] => []
  | x :: xs => decode_hexbytes x :: decodeL xs

/-- Value-wise normalization of dict members; keys are untouched. -/
def decodeP : List (Val × Val) → List (Val × Val)
  | [] => []
  | (k, v) :: kvs => (k, decode_hexbytes v) :: decodeP kvs

end

mutual

/-- Whether a value contains a raw byte-string leaf anywhere, dict keys
included. -/
def hasBytesLeaf : Val → Bool
  | .bytes _ => true
  | .vlist xs => hasBytesLeafL xs
  | .vtuple xs => hasBytesLeafL xs
  | .vdict kvs => hasBytesLeafP kvs
  | _ => false

/-- Sequence case of `hasBytesLeaf`. -/
def hasBytesLeafL : List Val → Bool
  | [] => false
  | x :: xs => hasBytesLeaf x || hasBytesLeafL xs

/-- Dict case of `hasBytesLeaf`, looking into keys and values. -/
def hasBytesLeafP : List (Val × Val) → Bool
  | [] => false
  | (k, v) :: kvs => hasBytesLeaf k || hasBytesLeaf v || hasBytesLeafP kvs

end

mutual

/-- Whether a value contains a raw byte-string leaf inside a dict-key
position (the positions `decode_hexbytes` does not rewrite). -/
def bytesInKeys : Val → Bool
  | .vlist xs => bytesInKeysL xs
  | .vtuple xs => bytesInKeysL xs
  | .vdict kvs => bytesInKeysP kvs
  | _ => false

/-- Sequence case of `bytesInKeys`. -/
def bytesInKeysL : List Val → Bool
  | [] => false
  | x :: xs => bytesInKeys x || bytesInKeysL xs

/-- Dict case of `bytesInKeys`: a key contributes all its byte leaves, a
value contributes only its key-position byte leaves. -/
def bytesInKeysP : List (Val × Val) → Bool
  | [] => false
  | (k, v) :: kvs => hasBytesLeaf k || bytesInKeys v || bytesInKeysP kvs

end

mutual

/-- Structural equality test on values, used for dict-key lookup.
Python compares keys with `==`; the cases where Python `==` is not
structural (unordered dict comparison, `True == 1` across types) involve
keys this program never constructs, since the only dict built from
user-controlled keys fails hashability first. -/
def vbeq : Val → Val → Bool
  | .int a, .int b => a == b
  | .str a, .str b => a == b
  | .bool a, .bool b => a == b
  | .bytes a, .bytes b => a == b
  | .vlist a, .vlist b => vbeqL a b
  | .vtuple a, .vtuple b => vbeqL a b
  | .vdict a, .vdict b => vbeqP a b
  | _, _ => false

/-- Element-wise equality of sequences. -/
def vbeqL : List Val → List Val → Bool
  | [], [] => true
  | a :: as, b :: bs => vbeq a b && vbeqL as bs
  | _, _ => false

/-- Member-wise equality of dict sequences. -/
def vbeqP : List (Val × Val) → List (Val × Val) → Bool
  | [], [] => true
  | (k, v) :: ps, (k2, v2) :: qs => vbeq k k2 && vbeq v v2 && vbeqP ps qs
  | _, _ => false

end

mutual

/-- Python hashability: lists and dicts are unhashable, tuples are
hashable when all their elements are, every other modelled value is
hashable. -/
def pyHashable : Val → Bool
  | .vlist _ => false
  | .vdict _ => false
  | .vtuple xs => pyHashableL xs
  | _ => true

/-- Hashability of every element of a tuple. -/
def pyHashableL : List Val → Bool
  | [] => true
  | x :: xs => pyHashable x && pyHashableL xs

end

/-- Python type name of a value, as it appears in a `TypeError`. -/
def pyTypeName : Val → String
  | .int _ => "int"
  | .str _ => "str"
  | .bool _ => "bool"
  | .bytes _ => "HexBytes"
  | .vlist _ => "list"
  | .vtuple _ => "tuple"
  | .vdict _ => "dict"

mutual

/-- Python `repr` of a value. -/
def pyRepr : Val → String
  | .int n => pyStrOfInt n
  | .str s => strRepr s
  | .bool b => if b then "True" else "False"
  | .bytes bs => bytesRepr bs
  | .vlist xs => "[" ++ String.intercalate ", " (pyReprL xs) ++ "]"
  | .vtuple [x] => "(" ++ pyRepr x ++ ",)"
  | .vtuple xs => "(" ++ String.intercalate ", " (pyReprL xs) ++ ")"
  | .vdict kvs => "\x7b" ++ String.intercalate ", " (pyReprP kvs) ++ "\x7d"

/-- Reprs of the elements of a sequence. -/
def pyReprL : List Val → List String
  | [] => []
  | x :: xs => pyRepr x :: pyReprL xs

/-- Reprs of the members of a dict. -/
def pyReprP : List (Val × Val) → List String
  | [] => []
  | (k, v) :: kvs => (pyRepr k ++ ": " ++ pyRepr v) :: pyReprP kvs

end

/-- Python `str()` of a value: a string passes through unquoted,
everything else renders as its repr. -/
def pyStr (v : Val) : String :=
  match v with
  | .str s => s
  | _ => pyRepr v

/-! ## Python `json.dumps(·, indent=2, ensure_ascii=False, default=str)` -/

/-- JSON escape of one character inside a dumped string
(`ensure_ascii=False` keeps everything above the control range). -/
def jsonEscChar (c : Char) : List Char :=
  if c == '"' then ['\\', '"']
  else if c == '\\' then ['\\', '\\']
  else if c == '\n' then ['\\', 'n']
  else if c == '\t' then ['\\', 't']
  else if c == '\r' then ['\\', 'r']
  else if c.toNat == 8 then ['\\', 'b']
  else if c.toNat == 12 then ['\\', 'f']
  else if c.toNat < 32 then ['\\', 'u', '0', '0'] ++ byteHex c.toNat
  else [c]

/-- A JSON string literal for `s`. -/
def jsonQuote (s : String) : String :=
  ⟨'"' :: (s.toList.map jsonEscChar).flatten ++ ['"']⟩

/-- Indentation of `indent=2` at nesting level `lvl`. -/
def pad (lvl : Nat) : String := ⟨List.replicate (2 * lvl) ' '⟩

/-- Serialization of a dict key: strings directly, integers and booleans
through their JSON text. Any other key type raises `TypeError` (the
`default` hook is not applied to keys). -/
def dumpKey : Val → Except Unit String
  | .str s => .ok (jsonQuote s)
  | .int n => .ok (jsonQuote (pyStrOfInt n))
  | .bool b => .ok (jsonQuote (if b then "true" else "false"))
  | _ => .error ()

/-- Indent each rendered item and join with `,` and newline. -/
def joinInd (lvl : Nat) (items : List String) : String :=
  String.intercalate ",\n" (items.map (fun it => pad lvl ++ it))

mutual

/-- Serialization of one value at nesting level `lvl`. Tuples serialize
as arrays; a raw byte string is not JSON-native, so `default=str` renders
it as its Python text first. -/
def serVal (lvl : Nat) : Val → Except Unit String
  | .int n => .ok (pyStrOfInt n)
  | .bool b => .ok (if b then "true" else "false")
  | .str s => .ok (jsonQuote s)
  | .bytes bs => .ok (jsonQuote (bytesRepr bs))
  | .vlist [] => .ok "[]"
  | .vlist xs =>
    match serItems (lvl + 1) xs with
    | .error _ => .error ()
    | .ok items => .ok ("[\n" ++ joinInd (lvl + 1) items ++ "\n" ++ pad lvl ++ "]")
  | .vtuple [] => .ok "[]"
  | .vtuple xs =>
    match serItems (lvl + 1) xs with
    | .error _ => .error ()
    | .ok items => .ok ("[\n" ++ joinInd (lvl + 1) items ++ "\n" ++ pad lvl ++ "]")
  | .vdict [] => .ok "\x7b\x7d"
  | .vdict kvs =>
    match serMembers (lvl + 1) kvs with
    | .error _ => .error ()
    | .ok items => .ok ("\x7b\n" ++ joinInd (lvl + 1) items ++ "\n" ++ pad lvl ++ "\x7d")

/-- Serialization of the elements of a sequence. -/
def serItems (lvl : Nat) : List Val → Except Unit (List String)
  | [] => .ok []
  | x :: xs =>
    match serVal lvl x with
    | .error _ => .error ()
    | .ok s =>
      match serItems lvl xs with
      | .error _ => .error ()
      | .ok ss => .ok (s :: ss)

/-- Serialization of the members of a dict. -/
def serMembers (lvl : Nat) : List (Val × Val) → Except Unit (List String)
  | [] => .ok []
  | (k, v) :: kvs =>
    match dumpKey k with
    | .error _ => .error ()
    | .ok ks =>
      match serVal lvl v with
      | .error _ => .error ()
      | .ok vs =>
        match serMembers lvl kvs with
        | .error _ => .error ()
        | .ok ss => .ok ((ks ++ ": " ++ vs) :: ss)

end

/-- The `json.dumps` call of `pretty_result`. -/
def pyDumps (v : Val) : Except Unit String := serVal 0 v

/-- The dump attempted inside the `try` of `pretty_result`: a top-level
list or tuple is normalized element-wise into a list first, anything
else is normalized whole. -/
def pyDumpsTop (res : Val) : Except Unit String :=
  match res with
  | .vlist xs => pyDumps (.vlist (xs.map decode_hexbytes))
  | .vtuple xs => pyDumps (.vlist (xs.map decode_hexbytes))
  | _ => pyDumps (decode_hexbytes res)

/-- The source `pretty_result`: serialize the normalized value; on any
exception fall back to Python `str()` of the original value. -/
def pretty_result (res : Val) : String :=
  match pyDumpsTop res with
  | .ok s => s
  | .error _ => pyStr res

/-- Python `dict(pairs)`: insert pairs left to right; re-inserting an
equal key keeps the original key object and its position and replaces
the value; an unhashable key raises `TypeError` (Python quotes the type
name in the message). -/
def pyDictSet (acc : List (Val × Val)) (k v : Val) : List (Val × Val) :=
  if acc.any (fun p => vbeq p.1 k) then
    acc.map (fun p => if vbeq p.1 k then (p.1, v) else p)
  else acc ++ [(k, v)]

/-- Build a Python dict from a key-value sequence, failing on the first
unhashable key. -/
def pyDictOfPairs (ps : List (Val × Val)) : Except String (List (Val × Val)) :=
  go [] ps
where
  /-- Insertion loop carrying the dict built so far. -/
  go (acc : List (Val × Val)) : List (Val × Val) → Except String (List (Val × Val))
    | [] => .ok acc
    | (k, v) :: rest =>
      if pyHashable k then go (pyDictSet acc k v) rest
      else .error ("unhashable type: " ++ pyTypeName k)

/-! ## The Type Coercion Engine (`convert_args`) -/

/-- One ABI input description, as far as the coercion engine reads it:
the declared parameter name and the Solidity type tag. (A compiled ABI
entry carries further fields such as `internalType`; they are never read
by the modelled code.) -/
structure InputSpec where
  name : String
  type : String
deriving DecidableEq

/-- The error kinds of the coercion engine: `invalidArgument` for a
`ValueError` (unparseable integer, bad address, malformed array
literal), `unsupportedType` for the explicit rejection of an array
element base type the engine cannot convert. -/
inductive CoerceErr where
  | invalidArgument
  | unsupportedType
deriving DecidableEq

/-- Whether an `Except` is a success. -/
def isOkE {ε α : Type} : Except ε α → Bool
  | .ok _ => true
  | .error _ => false

/-- Python `int(x)` applied to one parsed array element, as the numeric
array sub-branch would: an int stands, a bool becomes 0 or 1, a string
parses in base 10. The remaining cases (`None`, nested containers raise
`TypeError`; a float truncates) are collapsed to an error: the numeric
sub-branch is unreachable, because a numeric-base array type tag is
captured by the scalar integer branch first — see
`numeric_array_dispatch_unreachable`. -/
def elemToInt (x : JVal) : Except CoerceErr Int :=
  match x with
  | .jint n => .ok n
  | .jbool b => .ok (if b then 1 else 0)
  | .jstr s =>
    match pyInt s with
    | .ok n => .ok n
    | .error _ => .error .invalidArgument
  | _ => .error .invalidArgument

/-- The checksum collaborator `Web3.to_checksum_address` applied to one
parsed array element; a non-string element raises. -/
def elemToAddr (ck : String → Except String String) (x : JVal) :
    Except CoerceErr String :=
  match x with
  | .jstr s =>
    match ck s with
    | .ok a => .ok a
    | .error _ => .error .invalidArgument
  | _ => .error .invalidArgument

/-- Tokenization of an array-typed raw argument:
`json.loads(raw)` when the stripped raw starts with `[` (a failure is a
`ValueError`, an `invalidArgument`), otherwise the comma split with
stripped, non-empty tokens. A successful parse of a document whose first
character is `[` is always an array; the impossible non-array case is
mapped to an error. -/
def arrTokens (raw : String) : Except CoerceErr (List JVal) :=
  if pyStartsWith (pyStrip raw) "[" then
    match jsonLoads raw with
    | .ok (.jarr xs) => .ok xs
    | .ok _ => .error .invalidArgument
    | .error _ => .error .invalidArgument
  else .ok ((commaTokens raw).map JVal.jstr)

/-- Coercion of the elements of a numeric-base array. -/
def arrToInts (xs : List JVal) : Except CoerceErr (List Val) :=
  match xs with
  | [] => .ok []
  | x :: rest =>
    match elemToInt x with
    | .error e => .error e
    | .ok n =>
      match arrToInts rest with
      | .error e => .error e
      | .ok vs => .ok (.int n :: vs)

/-- Coercion of the elements of an address-base array. -/
def arrToAddrs (ck : String → Except String String) (xs : List JVal) :
    Except CoerceErr (List Val) :=
  match xs with
  | [] => .ok []
  | x :: rest =>
    match elemToAddr ck x with
    | .error e => .error e
    | .ok a =>
      match arrToAddrs ck rest with
      | .error e => .error e
      | .ok vs => .ok (.str a :: vs)

/-- The per-element body of the `convert_args` loop of the source, with
the branch order of the source: a type tag starting with `uint` or `int`
(which captures `uint256[]` as well) parses the whole raw as one
integer; then `address`, `bool`, `string`; then array types by element
base; anything else passes through. `ck` is the external
`Web3.to_checksum_address`. -/
def convertOne (ck : String → Except String String) (spec : InputSpec)
    (raw : String) : Except CoerceErr Val :=
  let t := spec.type
  if pyStartsWith t "uint" || pyStartsWith t "int" then
    match pyInt raw with
    | .ok n => .ok (.int n)
    | .error _ => .error .invalidArgument
  else if t == "address" then
    match ck raw with
    | .ok a => .ok (.str a)
    | .error _ => .error .invalidArgument
  else if t == "bool" then
    .ok (.bool (["1", "true", "yes", "y", "t"].contains (pyLower raw)))
  else if t == "string" then .ok (.str raw)
  else if pyEndsWith t "[]" then
    let base := pyDropLast2 t
    match arrTokens raw with
    | .error e => .error e
    | .ok arr =>
      if pyStartsWith base "uint" || pyStartsWith base "int" then
        match arrToInts arr with
        | .error e => .error e
        | .ok vs => .ok (.vlist vs)
      else if base == "address" then
        match arrToAddrs ck arr with
        | .error e => .error e
        | .ok vs => .ok (.vlist vs)
      else if base == "string" then
        .ok (.vlist (arr.map (fun x => .str (jvalStr x))))
      else .error .unsupportedType
  else .ok (.str raw)

/-- The loop of `convert_args` over the zipped pairs: convert left to
right, stopping at the first failure. -/
def convertLoop (ck : String → Except String String) :
    List (InputSpec × String) → Except CoerceErr (List Val)
  | [] => .ok []
  | (spec, raw) :: rest =>
    match convertOne ck spec raw with
    | .error e => .error e
    | .ok v =>
      match convertLoop ck rest with
      | .error e => .error e
      | .ok vs => .ok (v :: vs)

/-- The source `convert_args`: pair the ABI input specs with the raw
strings positionally (`zip`, which silently truncates to the shorter
sequence) and convert each pair. -/
def convert_args (ck : String → Except String String)
    (inputsAbi : List InputSpec) (argsRaw : List String) :
    Except CoerceErr (List Val) :=
  convertLoop ck (inputsAbi.zip argsRaw)

/-! ## Deployment Records and the write pipelines -/

/-- One Deployment Record as `add_record` writes it. -/
structure DeployRecord where
  time : Nat
  network : String
  contract_type : String
  address : String
  tx_hash : String
  constructor_args : List (Val × Val)

/-- The fragment of a transaction receipt the modelled code reads. -/
structure Receipt where
  contractAddress : String

/-- The source `add_record`: append one record, with the address passed
through the external checksum function (whose failure propagates as an
exception), to the loaded record list, and write it back. The record
list state is passed explicitly. -/
def add_record (ck : String → Except String String) (now : Nat)
    (records : List DeployRecord) (network ctype address txHash : String)
    (constructorArgs : List (Val × Val)) :
    Except String (List DeployRecord) :=
  match ck address with
  | .error e => .error e
  | .ok addr =>
    .ok (records ++ [⟨now, network, ctype, addr, txHash, constructorArgs⟩])

/-- Outcomes of the external blockchain-client calls used by one
write/deploy pipeline run, in pipeline order, plus the current clock.
Each field models one collaborator call that can raise, carrying the
exception text on failure. -/
structure DeployEnv where
  build : Except String Unit
  estimateGas : Except String Nat
  gasPrice : Except String Nat
  send : Except String String
  wait : Except String Receipt
  now : Nat

/-- The message of the first failing pipeline step, in the order the
source performs them: build, estimate gas, gas price, send, wait. -/
def DeployEnv.firstFail (env : DeployEnv) : Option String :=
  match env.build with
  | .error e => some e
  | .ok _ =>
    match env.estimateGas with
    | .error e => some e
    | .ok _ =>
      match env.gasPrice with
      | .error e => some e
      | .ok _ =>
        match env.send with
        | .error e => some e
        | .ok _ =>
          match env.wait with
          | .error e => some e
          | .ok _ => none

/-- The Python dict of one ABI input-spec entry, as it keys the
`constructor_args` mapping in the source
(`dict(zip(contract.constructor_abi["inputs"], constructor_args))` zips
the spec dicts themselves, not their `name` fields). -/
def inputSpecVal (s : InputSpec) : Val :=
  .vdict [(.str "name", .str s.name), (.str "type", .str s.type)]

/-- The wrapper the source puts around any exception in
`deploy_contract`. -/
def deployFail (e : String) : String := "部署失败：" ++ e

/-- The wrapper the source puts around any exception in
`interact_with_contract`. -/
def interactFail (e : String) : String := "交互失败：" ++ e

/-- The source `deploy_contract`: run the five pipeline steps in order,
then build `constructor_args` as `dict(zip(spec-dicts, args))` and append
the record; any exception anywhere is re-raised as one `部署失败` error
and the record list is left as it was. Returns the outcome and the
resulting record list. -/
def deploy_contract (env : DeployEnv) (ck : String → Except String String)
    (inputsAbi : List InputSpec) (constructorArgs : List Val)
    (chainName contractType : String) (log : List DeployRecord) :
    Except String Receipt × List DeployRecord :=
  match env.build with
  | .error e => (.error (deployFail e), log)
  | .ok _ =>
    match env.estimateGas with
    | .error e => (.error (deployFail e), log)
    | .ok _ =>
      match env.gasPrice with
      | .error e => (.error (deployFail e), log)
      | .ok _ =>
        match env.send with
        | .error e => (.error (deployFail e), log)
        | .ok txHash =>
          match env.wait with
          | .error e => (.error (deployFail e), log)
          | .ok receipt =>
            match pyDictOfPairs ((inputsAbi.map inputSpecVal).zip constructorArgs) with
            | .error e => (.error (deployFail e), log)
            | .ok cargs =>
              match add_record ck env.now log chainName contractType
                  receipt.contractAddress txHash cargs with
              | .error e => (.error (deployFail e), log)
              | .ok newLog => (.ok receipt, newLog)

/-- The two shapes of a successful interaction: a receipt from a write,
a call result from a read. -/
inductive InteractOutcome where
  | receipt (r : Receipt)
  | value (v : Val)

/-- The source `interact_with_contract`: a write runs the same five-step
pipeline (function lookup and transaction build are folded into the
`build` outcome) and returns the receipt; a read performs the call. Any
exception is re-raised as one `交互失败` error. The function never
touches the deployment record list, which is threaded through unchanged.
-/
def interact_with_contract (env : DeployEnv) (callRes : Except String Val)
    (is_write : Bool) (log : List DeployRecord) :
    Except String InteractOutcome × List DeployRecord :=
  if is_write then
    match env.build with
    | .error e => (.error (interactFail e), log)
    | .ok _ =>
      match env.estimateGas with
      | .error e => (.error (interactFail e), log)
      | .ok _ =>
        match env.gasPrice with
        | .error e => (.error (interactFail e), log)
        | .ok _ =>
          match env.send with
          | .error e => (.error (interactFail e), log)
          | .ok _ =>
            match env.wait with
            | .error e => (.error (interactFail e), log)
            | .ok receipt => (.ok (.receipt receipt), log)
  else
    match callRes with
    | .error e => (.error (interactFail e), log)
    | .ok v => (.ok (.value v), log)

/-- The source `load_records`: with a truthy (non-`None`, non-empty)
filter, keep the records whose network lower-cases to an extension of
the lower-cased filter; otherwise return all records. -/
def load_records (records : List DeployRecord)
    (network_filter : Option String) : List DeployRecord :=
  match network_filter with
  | some f =>
    if f ≠ "" then
      records.filter (fun r => pyStartsWith (pyLower r.network) (pyLower f))
    else records
  | none => records

/-- A concrete stand-in for the external checksum collaborator, used
only to instantiate closed evaluations; every claim about the engine is
proved for an arbitrary checksum function. -/
def ckId : String → Except String String := fun s => .ok s

/-! ## Lemmas about the result normalizer -/

theorem decodeL_map : ∀ xs, decodeL xs = xs.map decode_hexbytes
  | [] => by simp [decodeL]
  | x :: xs => by simp [decodeL, decodeL_map xs]

theorem decodeP_map : ∀ kvs, decodeP kvs = kvs.map (fun p => (p.1, decode_hexbytes p.2))
  | [] => by simp [decodeP]
  | (k, v) :: kvs => by simp [decodeP, decodeP_map kvs]

mutual

theorem decode_idem : (v : Val) →
    decode_hexbytes (decode_hexbytes v) = decode_hexbytes v
  | .int _ => by simp [decode_hexbytes]
  | .str _ => by simp [decode_hexbytes]
  | .bool _ => by simp [decode_hexbytes]
  | .bytes _ => by simp [decode_hexbytes]
  | .vlist xs => by simp [decode_hexbytes]; exact decode_idemL xs
  | .vtuple xs => by simp [decode_hexbytes]; exact decode_idemL xs
  | .vdict kvs => by simp [decode_hexbytes]; exact decode_idemP kvs

theorem decode_idemL : (xs : List Val) → decodeL (decodeL xs) = decodeL xs
  | [] => by simp [decodeL]
  | x :: xs => by simp [decodeL]; exact ⟨decode_idem x, decode_idemL xs⟩

theorem decode_idemP : (kvs : List (Val × Val)) → decodeP (decodeP kvs) = decodeP kvs
  | [] => by simp [decodeP]
  | (k, v) :: kvs => by simp [decodeP]; exact ⟨decode_idem v, decode_idemP kvs⟩

end

mutual

theorem decode_noBytes : (v : Val) →
    hasBytesLeaf (decode_hexbytes v) = bytesInKeys v
  | .int _ => by simp [decode_hexbytes, hasBytesLeaf, bytesInKeys]
  | .str _ => by simp [decode_hexbytes, hasBytesLeaf, bytesInKeys]
  | .bool _ => by simp [decode_hexbytes, hasBytesLeaf, bytesInKeys]
  | .bytes _ => by simp [decode_hexbytes, hasBytesLeaf, bytesInKeys]
  | .vlist xs => by
    simp [decode_hexbytes, hasBytesLeaf, bytesInKeys]; exact decode_noBytesL xs
  | .vtuple xs => by
    simp [decode_hexbytes, hasBytesLeaf, bytesInKeys]; exact decode_noBytesL xs
  | .vdict kvs => by
    simp [decode_hexbytes, hasBytesLeaf, bytesInKeys]; exact decode_noBytesP kvs

theorem decode_noBytesL : (xs : List Val) →
    hasBytesLeafL (decodeL xs) = bytesInKeysL xs
  | [] => by simp [decodeL, hasBytesLeafL, bytesInKeysL]
  | x :: xs => by
    simp [decodeL, hasBytesLeafL, bytesInKeysL]
    rw [decode_noBytes x, decode_noBytesL xs]

theorem decode_noBytesP : (kvs : List (Val × Val)) →
    hasBytesLeafP (decodeP kvs) = bytesInKeysP kvs
  | [] => by simp [decodeP, hasBytesLeafP, bytesInKeysP]
  | (k, v) :: kvs => by
    simp [decodeP, hasBytesLeafP, bytesInKeysP]
    rw [decode_noBytes v, decode_noBytesP kvs]

end

/-! ## Claims C7 and C10: the result normalizer -/

/-- Claim C7, amended: normalization rewrites every raw byte-string leaf
outside dict-key position to its `0x…` hex text (so a value containing
the bytes `de ad be ef` yields the literal string `"0xdeadbeef"` at that
position); dict keys pass through unrewritten; sequences and mappings
are normalized element-wise preserving order (tuples becoming lists);
numbers, strings and booleans pass through unchanged; and whenever the
serialization step fails, `pretty_result` degrades to the generic string
conversion of the top-level value instead of raising. -/
theorem claim_C7_normalizer (v : Val) (bs : List Nat) (xs : List Val)
    (kvs : List (Val × Val)) (n : Int) (s : String) (b : Bool) :
    decode_hexbytes (.bytes bs) = .str (hexOfBytes bs)
    ∧ decode_hexbytes (.vlist xs) = .vlist (xs.map decode_hexbytes)
    ∧ decode_hexbytes (.vtuple xs) = .vlist (xs.map decode_hexbytes)
    ∧ decode_hexbytes (.vdict kvs) =
        .vdict (kvs.map (fun p => (p.1, decode_hexbytes p.2)))
    ∧ decode_hexbytes (.int n) = .int n
    ∧ decode_hexbytes (.str s) = .str s
    ∧ decode_hexbytes (.bool b) = .bool b
    ∧ hasBytesLeaf (decode_hexbytes v) = bytesInKeys v
    ∧ hexOfBytes [222, 173, 190, 239] = "0xdeadbeef"
    ∧ (isOkE (pyDumpsTop v) = false → pretty_result v = pyStr v) := by
  refine ⟨by simp [decode_hexbytes], by simp [decode_hexbytes, decodeL_map],
    by simp [decode_hexbytes, decodeL_map], by simp [decode_hexbytes, decodeP_map],
    by simp [decode_hexbytes], by simp [decode_hexbytes], by simp [decode_hexbytes],
    decode_noBytes v, by decide, ?_⟩
  intro h
  unfold pretty_result
  cases hd : pyDumpsTop v with
  | ok s => rw [hd] at h; simp [isOkE] at h
  | error e => rfl

/-- Witness for C7 at a concrete value: a dict with a tuple key cannot
be serialized, and `pretty_result` falls back to Python `str()`. -/
theorem claim_C7_witness :
    isOkE (pyDumpsTop (Val.vdict [(.vtuple [], .int 0)])) = false
    ∧ pretty_result (Val.vdict [(.vtuple [], .int 0)]) =
        pyStr (Val.vdict [(.vtuple [], .int 0)]) := by
  have h : isOkE (pyDumpsTop (Val.vdict [(.vtuple [], .int 0)])) = false := by
    simp [pyDumpsTop, pyDumps, decode_hexbytes, decodeP, serVal, serMembers,
      dumpKey, isOkE]
  exact ⟨h,
    (claim_C7_normalizer (Val.vdict [(.vtuple [], .int 0)]) [] [] [] 0 "" true)
      |>.2.2.2.2.2.2.2.2.2 h⟩

/-- Counterexample to C7 as stated: a raw byte-string leaf in dict-key
position is not rewritten to hex text — the normalized value still
contains a raw byte-string leaf. -/
theorem claim_C7_counterexample :
    decode_hexbytes (Val.vdict [(.bytes [222, 173, 190, 239], .int 7)]) =
      Val.vdict [(.bytes [222, 173, 190, 239], .int 7)]
    ∧ hasBytesLeaf
        (decode_hexbytes (Val.vdict [(.bytes [222, 173, 190, 239], .int 7)])) =
        true := by
  constructor <;> simp [decode_hexbytes, decodeP, hasBytesLeaf, hasBytesLeafP]

/-- Claim C10, amended: the byte-string normalizer is idempotent on every
value, and its output is free of raw byte-string leaves exactly when the
input has no raw byte string inside a dict-key position (dict keys are
not rewritten). -/
theorem claim_C10_decode_idempotent (v : Val) :
    decode_hexbytes (decode_hexbytes v) = decode_hexbytes v
    ∧ hasBytesLeaf (decode_hexbytes v) = bytesInKeys v :=
  ⟨decode_idem v, decode_noBytes v⟩

/-- Counterexample to C10 as stated: for a dict keyed by a raw byte
string, the output of the normalizer still contains a raw byte-string
leaf. -/
theorem claim_C10_counterexample :
    hasBytesLeaf (decode_hexbytes (Val.vdict [(.bytes [1, 2], .str "x")])) =
      true := by
  simp [decode_hexbytes, decodeP, hasBytesLeaf, hasBytesLeafP]

/-! ## Claims C1 and C2: the deploy and interact pipelines -/

/-- Claim C1, evaluated at the failing input: with a non-empty
constructor input list and every chain step succeeding, `deploy_contract`
builds `constructor_args` as `dict(zip(abi-input-dicts, args))`, whose
keys are the (unhashable) ABI input-spec dicts rather than the declared
parameter names; the `TypeError` is re-raised as `部署失败` and no
Deployment Record is appended, so the deployment is never successful and
the claimed record is never created. -/
theorem claim_C1_deploy_record_bug :
    deploy_contract
        ⟨.ok (), .ok 21000, .ok 1, .ok "0xabc123", .ok ⟨"0xAddr"⟩, 1700000000⟩
        ckId [⟨"initialSupply", "uint256"⟩] [.int 1000] "Mumbai" "DemoERC20" []
      = (.error "部署失败：unhashable type: dict", []) := by
  simp [deploy_contract, pyDictOfPairs, pyDictOfPairs.go, pyHashable,
    inputSpecVal, pyTypeName, deployFail]

/-- Claim C2: whenever any of the five pipeline steps fails, the
operation raises a single wrapped error carrying the original message
and the deployment log is unchanged; in particular a gas-estimation
failure (with the build step succeeding) is the first failure; and more
generally every non-successful deployment leaves the log exactly as it
was. -/
theorem claim_C2_pipeline_failure_atomic
    (env : DeployEnv) (ck : String → Except String String)
    (inputsAbi : List InputSpec) (cargs : List Val)
    (chainName contractType : String) (log : List DeployRecord)
    (callRes : Except String Val) (e : String) :
    (env.firstFail = some e →
      deploy_contract env ck inputsAbi cargs chainName contractType log
        = (.error ("部署失败：" ++ e), log)
      ∧ interact_with_contract env callRes true log
        = (.error ("交互失败：" ++ e), log))
    ∧ (isOkE env.build = true → env.estimateGas = .error e →
        env.firstFail = some e)
    ∧ (isOkE (deploy_contract env ck inputsAbi cargs chainName
          contractType log).1 = false →
        (deploy_contract env ck inputsAbi cargs chainName contractType
          log).2 = log) := by
  obtain ⟨b, eg, gp, sd, wt, nw⟩ := env
  cases b <;> cases eg <;> cases gp <;> cases sd <;> cases wt <;>
    simp [deploy_contract, interact_with_contract, DeployEnv.firstFail,
      deployFail, interactFail, isOkE] <;>
    (try (intro h; subst h; simp)) <;>
    (try (split <;> simp_all [isOkE] <;> (try (split <;> simp_all [isOkE])) <;>
      (try (split <;> simp_all [isOkE]))))

/-- Witness for C2 at a concrete environment whose gas-estimation step
fails with `boom`: both pipelines report the wrapped error and the log
is untouched. -/
theorem claim_C2_witness :
    deploy_contract ⟨.ok (), .error "boom", .ok 0, .ok "0x00", .ok ⟨"0xA"⟩, 0⟩
        ckId [] [] "Mumbai" "SimpleStorage" []
      = (.error "部署失败：boom", [])
    ∧ interact_with_contract
        ⟨.ok (), .error "boom", .ok 0, .ok "0x00", .ok ⟨"0xA"⟩, 0⟩
        (.ok (.int 0)) true []
      = (.error "交互失败：boom", []) :=
  (claim_C2_pipeline_failure_atomic
    ⟨.ok (), .error "boom", .ok 0, .ok "0x00", .ok ⟨"0xA"⟩, 0⟩
    ckId [] [] "Mumbai" "SimpleStorage" [] (.ok (.int 0)) "boom").1 rfl

/-! ## Claim C3: positional pairing truncates -/

theorem zip_take_min {α β : Type} (l1 : List α) (l2 : List β) :
    (l1.take (min l1.length l2.length)).zip
        (l2.take (min l1.length l2.length)) = l1.zip l2 := by
  rw [List.zip_eq_zipWith, List.zip_eq_zipWith, ← List.take_zipWith]
  exact List.take_of_length_le (by simp)

theorem convertLoop_length (ck : String → Except String String)
    (ps : List (InputSpec × String)) :
    ∀ out, convertLoop ck ps = .ok out → out.length = ps.length := by
  induction ps with
  | nil => intro out h; simp [convertLoop] at h; simp [← h]
  | cons p ps ih =>
    intro out h
    obtain ⟨s, r⟩ := p
    simp only [convertLoop] at h
    cases h1 : convertOne ck s r with
    | error e => rw [h1] at h; simp at h
    | ok v =>
      rw [h1] at h
      cases h2 : convertLoop ck ps with
      | error e => rw [h2] at h; simp at h
      | ok vs =>
        rw [h2] at h
        simp at h
        simp [← h, ih vs h2]

theorem convertLoop_ok_all (ck : String → Except String String)
    (ps : List (InputSpec × String))
    (hall : ∀ p ∈ ps, isOkE (convertOne ck p.1 p.2) = true) :
    isOkE (convertLoop ck ps) = true := by
  induction ps with
  | nil => simp [convertLoop, isOkE]
  | cons p ps ih =>
    obtain ⟨s, r⟩ := p
    have h1 := hall (s, r) (by simp)
    simp only [convertLoop]
    cases h2 : convertOne ck s r with
    | error e => rw [h2] at h1; simp [isOkE] at h1
    | ok v =>
      have h3 := ih (fun q hq => hall q (by simp [hq]))
      cases h4 : convertLoop ck ps with
      | error e => rw [h4] at h3; simp [isOkE] at h3
      | ok vs => simp [isOkE]

/-- Claim C3: coercion pairs the input specs and the raw arguments
positionally, silently dropping the excess entries of the longer
sequence — the result is the same as coercing both sequences truncated
to the shorter length, a successful result has exactly that length, and
no error arises from the length mismatch itself (the call succeeds
whenever every surviving pair coerces). -/
theorem claim_C3_zip_truncation (ck : String → Except String String)
    (inputsAbi : List InputSpec) (argsRaw : List String) :
    convert_args ck inputsAbi argsRaw
      = convert_args ck
          (inputsAbi.take (min inputsAbi.length argsRaw.length))
          (argsRaw.take (min inputsAbi.length argsRaw.length))
    ∧ (∀ out, convert_args ck inputsAbi argsRaw = .ok out →
        out.length = min inputsAbi.length argsRaw.length)
    ∧ ((∀ p ∈ inputsAbi.zip argsRaw, isOkE (convertOne ck p.1 p.2) = true) →
        isOkE (convert_args ck inputsAbi argsRaw) = true) := by
  refine ⟨?_, ?_, ?_⟩
  · unfold convert_args
    rw [zip_take_min]
  · intro out h
    have := convertLoop_length ck (inputsAbi.zip argsRaw) out h
    simpa using this
  · intro hall
    exact convertLoop_ok_all ck _ hall

/-- Witness for C3 at concrete input: two specs paired with three raw
arguments coerce successfully, the extra argument being dropped. -/
theorem claim_C3_witness :
    isOkE (convert_args ckId [⟨"a", "string"⟩, ⟨"b", "bool"⟩]
      ["x", "yes", "z"]) = true :=
  (claim_C3_zip_truncation ckId [⟨"a", "string"⟩, ⟨"b", "bool"⟩]
    ["x", "yes", "z"]).2.2 (by decide)

/-! ## Claim C8: deployment record retrieval -/

/-- Claim C8: with a non-empty network filter, `load_records` returns
exactly the subsequence of records whose network case-insensitively
starts with the filter, in the stored order (a sublist containing
precisely the matching records); with no filter it returns all records.
-/
theorem claim_C8_load_records_filter (records : List DeployRecord)
    (f : String) (h : f ≠ "") :
    load_records records (some f)
      = records.filter
          (fun r => pyStartsWith (pyLower r.network) (pyLower f))
    ∧ (load_records records (some f)).Sublist records
    ∧ (∀ r, r ∈ load_records records (some f) ↔
        r ∈ records ∧ pyStartsWith (pyLower r.network) (pyLower f) = true)
    ∧ load_records records none = records := by
  have he : load_records records (some f)
      = records.filter
          (fun r => pyStartsWith (pyLower r.network) (pyLower f)) := by
    simp [load_records, h]
  refine ⟨he, ?_, ?_, rfl⟩
  · rw [he]; exact List.filter_sublist records
  · intro r; rw [he]; simp [List.mem_filter]

/-- Witness for C8 at a concrete log with networks `Mumbai`, `Polygon`
and `mumbaiTest`, filtered by `Mumbai`. -/
theorem claim_C8_witness :
    load_records
        [⟨1, "Mumbai", "A", "a", "t1", []⟩, ⟨2, "Polygon", "B", "b", "t2", []⟩,
          ⟨3, "mumbaiTest", "C", "c", "t3", []⟩] (some "Mumbai")
      = List.filter
          (fun r => pyStartsWith (pyLower r.network) (pyLower "Mumbai"))
          [⟨1, "Mumbai", "A", "a", "t1", []⟩, ⟨2, "Polygon", "B", "b", "t2", []⟩,
            ⟨3, "mumbaiTest", "C", "c", "t3", []⟩]
    ∧ (load_records
        [⟨1, "Mumbai", "A", "a", "t1", []⟩, ⟨2, "Polygon", "B", "b", "t2", []⟩,
          ⟨3, "mumbaiTest", "C", "c", "t3", []⟩] (some "Mumbai")).Sublist
        [⟨1, "Mumbai", "A", "a", "t1", []⟩, ⟨2, "Polygon", "B", "b", "t2", []⟩,
          ⟨3, "mumbaiTest", "C", "c", "t3", []⟩] :=
  ⟨(claim_C8_load_records_filter _ "Mumbai" (by decide)).1,
   (claim_C8_load_records_filter _ "Mumbai" (by decide)).2.1⟩

/-! ## Claim C4: boolean coercion -/

/-- Claim C4: for a `bool` spec, coercion is total — every input string
yields `.ok`, with `true` exactly when the lower-cased input is one of
`1`, `true`, `yes`, `y`, `t`; the listed example inputs evaluate as
claimed. -/
theorem claim_C4_bool_coercion (ck : String → Except String String)
    (nm raw : String) :
    convertOne ck ⟨nm, "bool"⟩ raw
      = .ok (.bool (["1", "true", "yes", "y", "t"].contains (pyLower raw)))
    ∧ convertOne ck ⟨nm, "bool"⟩ "1" = .ok (.bool true)
    ∧ convertOne ck ⟨nm, "bool"⟩ "true" = .ok (.bool true)
    ∧ convertOne ck ⟨nm, "bool"⟩ "yes" = .ok (.bool true)
    ∧ convertOne ck ⟨nm, "bool"⟩ "y" = .ok (.bool true)
    ∧ convertOne ck ⟨nm, "bool"⟩ "t" = .ok (.bool true)
    ∧ convertOne ck ⟨nm, "bool"⟩ "TRUE" = .ok (.bool true)
    ∧ convertOne ck ⟨nm, "bool"⟩ "Y" = .ok (.bool true)
    ∧ convertOne ck ⟨nm, "bool"⟩ "0" = .ok (.bool false)
    ∧ convertOne ck ⟨nm, "bool"⟩ "false" = .ok (.bool false)
    ∧ convertOne ck ⟨nm, "bool"⟩ "" = .ok (.bool false)
    ∧ convertOne ck ⟨nm, "bool"⟩ "no" = .ok (.bool false) :=
 by and_intros <;> rfl

/-! ## Claim C5: numeric array specs never reach the array branch -/

/-- Claim C5, evaluated at the failing inputs: because `"uint256[]"`
starts with `"uint"`, both the JSON form `"[1,2,3]"` and the comma form
`"1, 2, 3"` are fed to the scalar `int()` conversion and fail with
`ValueError`, instead of coercing to the sequence `[1,2,3]`; the numeric
case of the array branch is unreachable
(`numeric_array_dispatch_unreachable`). -/
theorem claim_C5_numeric_array_bug :
    convertOne ckId ⟨"xs", "uint256[]"⟩ "[1,2,3]" = .error .invalidArgument
    ∧ convertOne ckId ⟨"xs", "uint256[]"⟩ "1, 2, 3" = .error .invalidArgument :=
  ⟨rfl, rfl⟩

/-! ## String lemmas for the type-tag dispatch -/

theorem strStarts_append_of (p : List Char) :
    ∀ cs ds, strStarts p cs = true → strStarts p (cs ++ ds) = true := by
  induction p with
  | nil => intro cs ds _; simp [strStarts]
  | cons a p ih =>
    intro cs ds h
    cases cs with
    | nil => simp [strStarts] at h
    | cons c cs =>
      simp [strStarts] at h ⊢
      exact ⟨h.1, ih cs ds h.2⟩

theorem strStarts_stop_at (d : Char) (rest : List Char) :
    ∀ (p cs : List Char), d ∉ p →
      strStarts p (cs ++ d :: rest) = strStarts p cs := by
  intro p
  induction p generalizing rest with
  | nil => intro cs _; simp [strStarts]
  | cons a p ih =>
    intro cs hd
    cases cs with
    | nil =>
      simp [strStarts]
      intro ha
      exact absurd (ha ▸ List.mem_cons_self a p) hd
    | cons c cs =>
      simp only [List.cons_append, strStarts]
      by_cases hac : a = c
      · subst hac
        simp only [beq_self_eq_true, Bool.true_and]
        exact ih rest cs (fun hm => hd (List.mem_cons_of_mem a hm))
      · have hne : (a == c) = false := beq_eq_false_iff_ne.mpr hac
        simp [hne]

theorem toList_append_brk (base : String) :
    (base ++ "[]").toList = base.toList ++ ['[', ']'] := by
  show (base ++ "[]").data = base.data ++ ['[', ']']
  rw [String.data_append]

theorem startsWith_brk_uint (base : String) :
    pyStartsWith (base ++ "[]") "uint" = pyStartsWith base "uint" := by
  unfold pyStartsWith
  rw [toList_append_brk]
  have : ('[' :: [']'] : List Char) = ['[', ']'] := rfl
  rw [← this, strStarts_stop_at '[' [']'] _ _ (by decide)]

theorem startsWith_brk_int (base : String) :
    pyStartsWith (base ++ "[]") "int" = pyStartsWith base "int" := by
  unfold pyStartsWith
  rw [toList_append_brk]
  have : ('[' :: [']'] : List Char) = ['[', ']'] := rfl
  rw [← this, strStarts_stop_at '[' [']'] _ _ (by decide)]

theorem append_brk_ne (base X : String) (hX : ']' ∉ X.toList) :
    base ++ "[]" ≠ X := by
  intro h
  have hm : ']' ∈ (base ++ "[]").toList := by
    rw [toList_append_brk]
    simp
  rw [h] at hm
  exact hX hm

theorem endsWith_brk (base : String) : pyEndsWith (base ++ "[]") "[]" = true := by
  unfold pyEndsWith
  rw [toList_append_brk]
  simp [strStarts]

theorem dropLast2_brk (base : String) : pyDropLast2 (base ++ "[]") = base := by
  unfold pyDropLast2
  rw [toList_append_brk]
  simp

/-- The scalar integer branch captures every numeric-base array type
tag: for a base starting with `uint` or `int`, coercion of
`base ++ "[]"` is `int(raw)` on the whole raw string, and the numeric
case inside the array branch can never run. -/
theorem numeric_array_dispatch_unreachable
    (ck : String → Except String String) (nm base raw : String)
    (h : (pyStartsWith base "uint" || pyStartsWith base "int") = true) :
    convertOne ck ⟨nm, base ++ "[]"⟩ raw
      = match pyInt raw with
        | .ok n => .ok (.int n)
        | .error _ => .error .invalidArgument := by
  have ht : (pyStartsWith (base ++ "[]") "uint"
      || pyStartsWith (base ++ "[]") "int") = true := by
    rw [startsWith_brk_uint, startsWith_brk_int]
    exact h
  unfold convertOne
  simp only [ht, if_pos]

/-! ## Failure lemmas for `pyInt` -/

theorem pyIntGo_chars : ∀ (cs : List Char) (acc n : Nat),
    pyIntDigits.pyIntGo cs acc = some n →
    ∀ c ∈ cs, (c.isDigit = true ∨ c = '_')
  | [], _, _, _, c, hc => absurd hc (List.not_mem_nil c)
  | c0 :: cs, acc, n, h, c, hc => by
    unfold pyIntDigits.pyIntGo at h
    by_cases h0 : (c0 == '_') = true
    · rw [if_pos h0] at h
      match cs, h, hc with
      | c2 :: cs2, h, hc =>
        change (if c2.isDigit = true
          then pyIntDigits.pyIntGo cs2 (10 * acc + (c2.toNat - 48))
          else none) = some n at h
        by_cases h2 : c2.isDigit = true
        · rw [if_pos h2] at h
          rcases List.mem_cons.mp hc with rfl | hc2
          · exact Or.inr (beq_iff_eq.mp h0)
          · rcases List.mem_cons.mp hc2 with rfl | hc3
            · exact Or.inl h2
            · exact pyIntGo_chars cs2 _ n h c hc3
        · rw [if_neg h2] at h
          exact absurd h (by simp)
      | [], h, _ => exact absurd h (by change (none : Option Nat) = some n → False; simp)
    · rw [if_neg h0] at h
      by_cases h1 : c0.isDigit = true
      · rw [if_pos h1] at h
        rcases List.mem_cons.mp hc with rfl | hc2
        · exact Or.inl h1
        · exact pyIntGo_chars cs _ n h c hc2
      · rw [if_neg h1] at h
        exact absurd h (by simp)

theorem pyIntDigits_chars (cs : List Char) (n : Nat)
    (h : pyIntDigits cs = some n) :
    ∀ c ∈ cs, (c.isDigit = true ∨ c = '_') := by
  cases cs with
  | nil => intro c hc; exact absurd hc (List.not_mem_nil c)
  | cons c0 cs =>
    intro c hc
    simp only [pyIntDigits] at h
    by_cases h1 : c0.isDigit = true
    · rw [if_pos h1] at h
      rcases List.mem_cons.mp hc with rfl | hc2
      · exact Or.inl h1
      · exact pyIntGo_chars cs _ n h c hc2
    · rw [if_neg h1] at h
      exact absurd h (by simp)

theorem pyIntDigits_comma (cs : List Char) (hc : ',' ∈ cs) :
    pyIntDigits cs = none := by
  cases h : pyIntDigits cs with
  | none => rfl
  | some n =>
    rcases pyIntDigits_chars cs n h ',' hc with h1 | h1
    · exact absurd h1 (by decide)
    · exact absurd h1 (by decide)

theorem mem_dropWhile_of_mem {p : Char → Bool} {c : Char} :
    ∀ {l : List Char}, c ∈ l → p c = false → c ∈ l.dropWhile p := by
  intro l
  induction l with
  | nil => intro h _; exact absurd h (List.not_mem_nil c)
  | cons a l ih =>
    intro hm hp
    rw [List.dropWhile_cons]
    by_cases ha : p a = true
    · rw [if_pos ha]
      rcases List.mem_cons.mp hm with rfl | h2
      · rw [hp] at ha; exact absurd ha (by simp)
      · exact ih h2 hp
    · rw [if_neg ha]
      exact hm

theorem mem_pyStripL {c : Char} (hws : isPyWs c = false) :
    ∀ {l : List Char}, c ∈ l → c ∈ pyStripL l := by
  intro l hm
  unfold pyStripL
  rw [List.mem_reverse]
  exact mem_dropWhile_of_mem (List.mem_reverse.mpr
    (mem_dropWhile_of_mem hm hws)) hws

theorem pyInt_comma (raw : String) (hc : ',' ∈ raw.toList) :
    pyInt raw = .error () := by
  have hcs : ',' ∈ pyStripL raw.toList := mem_pyStripL (by decide) hc
  unfold pyInt
  split
  · next cs heq =>
    rw [heq] at hcs
    have : ',' ∈ cs := by
      rcases List.mem_cons.mp hcs with h1 | h1
      · exact absurd h1 (by decide)
      · exact h1
    rw [pyIntDigits_comma cs this]
  · next cs heq =>
    rw [heq] at hcs
    have : ',' ∈ cs := by
      rcases List.mem_cons.mp hcs with h1 | h1
      · exact absurd h1 (by decide)
      · exact h1
    rw [pyIntDigits_comma cs this]
  · rw [pyIntDigits_comma _ hcs]

theorem splitOnChar_no_sep (sep : Char) :
    ∀ (cs : List Char), sep ∉ cs → splitOnChar sep cs = [cs] := by
  intro cs
  induction cs with
  | nil => intro _; rfl
  | cons c cs ih =>
    intro h
    have hcsep : (c == sep) = false :=
      beq_eq_false_iff_ne.mpr (fun e => h (by simp [e]))
    simp only [splitOnChar, hcsep]
    rw [ih (fun hm => h (List.mem_cons_of_mem c hm))]
    rfl

theorem dropWhile_idem (p : Char → Bool) :
    ∀ l : List Char, List.dropWhile p (List.dropWhile p l) = List.dropWhile p l := by
  intro l
  induction l with
  | nil => rfl
  | cons c l ih =>
    rw [List.dropWhile_cons]
    by_cases h : p c = true
    · rw [if_pos h]; exact ih
    · rw [if_neg h, List.dropWhile_cons, if_neg h]

theorem dropWhile_of_lead (p : Char → Bool) (l q : List Char)
    (hl : List.dropWhile p l = l) (hq : q <+: l) :
    List.dropWhile p q = q := by
  cases q with
  | nil => rfl
  | cons x q2 =>
    obtain ⟨t, ht⟩ := hq
    rw [← ht, List.cons_append, List.dropWhile_cons] at hl
    by_cases hx : p x = true
    · rw [if_pos hx] at hl
      have hle := (show List.dropWhile p (q2 ++ t) <:+ q2 ++ t from
        List.dropWhile_suffix p).sublist.length_le
      rw [hl] at hle
      simp at hle
    · rw [List.dropWhile_cons, if_neg hx]

theorem pyStripL_idem (cs : List Char) :
    pyStripL (pyStripL cs) = pyStripL cs := by
  unfold pyStripL
  have hAdw : List.dropWhile isPyWs (List.dropWhile isPyWs cs)
      = List.dropWhile isPyWs cs := dropWhile_idem _ cs
  have hBsuf : ((cs.dropWhile isPyWs).reverse.dropWhile isPyWs)
      <:+ (cs.dropWhile isPyWs).reverse := List.dropWhile_suffix _
  have hpre : ((cs.dropWhile isPyWs).reverse.dropWhile isPyWs).reverse
      <+: cs.dropWhile isPyWs := by
    obtain ⟨t, ht⟩ := hBsuf
    refine ⟨t.reverse, ?_⟩
    rw [← List.reverse_append, ht, List.reverse_reverse]
  have h1 := dropWhile_of_lead isPyWs (cs.dropWhile isPyWs) _ hAdw hpre
  rw [h1, List.reverse_reverse, dropWhile_idem]

theorem pyInt_strip (raw : String) : pyInt (pyStrip raw) = pyInt raw := by
  unfold pyInt pyStrip
  have h : (String.mk (pyStripL raw.toList)).toList = pyStripL raw.toList := rfl
  rw [h, pyStripL_idem]

theorem pyInt_bracket (raw : String)
    (h : pyStartsWith (pyStrip raw) "[" = true) : pyInt raw = .error () := by
  have hl : ∃ rest, pyStripL raw.toList = '[' :: rest := by
    unfold pyStartsWith at h
    have h2 : strStarts ['['] (pyStripL raw.toList) = true := h
    cases hX : pyStripL raw.toList with
    | nil => rw [hX] at h2; simp [strStarts] at h2
    | cons c rest =>
      rw [hX] at h2
      simp [strStarts] at h2
      exact ⟨rest, by rw [h2]⟩
  obtain ⟨rest, hr⟩ := hl
  unfold pyInt
  rw [hr]
  simp [pyIntDigits]

theorem commaTokens_no_comma (raw : String) (hc : ',' ∉ raw.toList) :
    commaTokens raw
      = if pyStripL raw.toList = [] then []
        else [(⟨pyStripL raw.toList⟩ : String)] := by
  unfold commaTokens
  rw [splitOnChar_no_sep ',' raw.toList hc]
  by_cases h : pyStripL raw.data = []
  · simp [h]
  · simp [h]

theorem pyInt_fail_of_token (raw tok : String) (htm : tok ∈ commaTokens raw)
    (hterr : pyInt tok = .error ()) : pyInt raw = .error () := by
  by_cases hc : ',' ∈ raw.toList
  · exact pyInt_comma raw hc
  · rw [commaTokens_no_comma raw hc] at htm
    by_cases h0 : pyStripL raw.toList = []
    · rw [if_pos h0] at htm
      exact absurd htm (List.not_mem_nil tok)
    · rw [if_neg h0] at htm
      have he : tok = (⟨pyStripL raw.toList⟩ : String) :=
        List.mem_singleton.mp htm
      rw [he] at hterr
      rw [← pyInt_strip raw]
      exact hterr

/-! ## Claim C6: array coercion error kinds -/

/-- Claim C6, amended: for an array spec with a numeric element base, a
raw value containing a comma token that is not a parseable base-10
integer — or taking the JSON path — fails with `InvalidArgument` (via
the scalar `int()` branch that captures numeric array tags). For an
array spec whose element base is not numeric, address, or string,
coercion fails with `UnsupportedType` whenever the raw value does not
take the JSON path or its JSON array literal parses; a malformed JSON
array literal fails with `InvalidArgument` instead
(`claim_C6_counterexample`). -/
theorem claim_C6_array_error_kinds (ck : String → Except String String)
    (nm base raw : String) :
    ((pyStartsWith base "uint" || pyStartsWith base "int") = true →
      ((∃ tok ∈ commaTokens raw, pyInt tok = .error ()) ∨
        pyStartsWith (pyStrip raw) "[" = true) →
      convertOne ck ⟨nm, base ++ "[]"⟩ raw = .error .invalidArgument)
    ∧ (pyStartsWith base "uint" = false → pyStartsWith base "int" = false →
      base ≠ "address" → base ≠ "string" →
      (pyStartsWith (pyStrip raw) "[" = false ∨
        ∃ xs, jsonLoads raw = .ok (.jarr xs)) →
      convertOne ck ⟨nm, base ++ "[]"⟩ raw = .error .unsupportedType) := by
  constructor
  · intro hb htok
    rw [numeric_array_dispatch_unreachable ck nm base raw hb]
    have hfail : pyInt raw = .error () := by
      rcases htok with ⟨tok, htm, hterr⟩ | hbr
      · exact pyInt_fail_of_token raw tok htm hterr
      · exact pyInt_bracket raw hbr
    rw [hfail]
  · intro hu hi ha hs harr
    have hA : ((base ++ "[]") == "address") = false :=
      beq_eq_false_iff_ne.mpr (append_brk_ne base "address" (by decide))
    have hB : ((base ++ "[]") == "bool") = false :=
      beq_eq_false_iff_ne.mpr (append_brk_ne base "bool" (by decide))
    have hS : ((base ++ "[]") == "string") = false :=
      beq_eq_false_iff_ne.mpr (append_brk_ne base "string" (by decide))
    have hba : (base == "address") = false := beq_eq_false_iff_ne.mpr ha
    have hbs : (base == "string") = false := beq_eq_false_iff_ne.mpr hs
    have htok : ∃ arr, arrTokens raw = .ok arr := by
      unfold arrTokens
      rcases harr with h | ⟨xs, hxs⟩
      · simp [h]
      · by_cases hb : pyStartsWith (pyStrip raw) "[" = true
        · simp [hb, hxs]
        · simp [hb]
    obtain ⟨arr, harr2⟩ := htok
    unfold convertOne
    simp [startsWith_brk_uint, startsWith_brk_int, hu, hi, hA, hB, hS,
      endsWith_brk, dropLast2_brk, harr2, hba, hbs]

/-- Witness for C6 at concrete inputs: `uint256[]` with the bracketless
raw `not-an-array` fails with `InvalidArgument`, and `bool[]` with the
comma raw `1,0` fails with `UnsupportedType`. -/
theorem claim_C6_witness :
    convertOne ckId ⟨"ns", "uint256" ++ "[]"⟩ "not-an-array"
      = .error .invalidArgument
    ∧ convertOne ckId ⟨"fs", "bool" ++ "[]"⟩ "1,0"
      = .error .unsupportedType :=
  ⟨(claim_C6_array_error_kinds ckId "ns" "uint256" "not-an-array").1
      (by decide) (Or.inl ⟨"not-an-array", by decide, by rfl⟩),
    (claim_C6_array_error_kinds ckId "fs" "bool" "1,0").2
      (by decide) (by decide) (by decide) (by decide) (Or.inl (by decide))⟩

/-- Counterexample to C6 as stated: for the non-convertible base `bool`,
the malformed JSON array literal `[` fails with `InvalidArgument` (a
`json.loads` `ValueError`), not with `UnsupportedType`. -/
theorem claim_C6_counterexample :
    convertOne ckId ⟨"flags", "bool[]"⟩ "[" = .error .invalidArgument
    ∧ CoerceErr.invalidArgument ≠ CoerceErr.unsupportedType :=
  ⟨rfl, by decide⟩

/-! ## Claim C9: integer round-trip -/

theorem char_toNat_inj {a b : Char} (h : a.toNat = b.toNat) : a = b :=
  Char.ext (UInt32.ext h)

theorem digit_bounds (c : Char) (h : c.isDigit = true) :
    48 ≤ c.toNat ∧ c.toNat ≤ 57 := by
  unfold Char.isDigit at h
  rw [Bool.and_eq_true] at h
  obtain ⟨h1, h2⟩ := h
  rw [decide_eq_true_eq] at h1 h2
  exact ⟨h1, h2⟩

theorem isPyWs_of_digit (c : Char) (hd : c.isDigit = true) :
    isPyWs c = false := by
  obtain ⟨h1, h2⟩ := digit_bounds c hd
  have key : ∀ w : Char, w.toNat < 48 → (c == w) = false := by
    intro w hw
    refine beq_eq_false_iff_ne.mpr (fun e => ?_)
    rw [e] at h1
    omega
  unfold isPyWs
  rw [key ' ' (by decide), key '\t' (by decide), key '\n' (by decide),
    key '\r' (by decide), key (Char.ofNat 11) (by decide),
    key (Char.ofNat 12) (by decide)]
  rfl

theorem digitChar_dval (c : Char) (hd : c.isDigit = true) :
    digitChar (c.toNat - 48) = c := by
  obtain ⟨h1, h2⟩ := digit_bounds c hd
  have h0 : c.toNat = 48 ∨ c.toNat = 49 ∨ c.toNat = 50 ∨ c.toNat = 51 ∨
      c.toNat = 52 ∨ c.toNat = 53 ∨ c.toNat = 54 ∨ c.toNat = 55 ∨
      c.toNat = 56 ∨ c.toNat = 57 := by omega
  have hc : c = '0' ∨ c = '1' ∨ c = '2' ∨ c = '3' ∨ c = '4' ∨ c = '5' ∨
      c = '6' ∨ c = '7' ∨ c = '8' ∨ c = '9' := by
    rcases h0 with h | h | h | h | h | h | h | h | h | h
    · exact Or.inl (char_toNat_inj h)
    · exact Or.inr (Or.inl (char_toNat_inj h))
    · exact Or.inr (Or.inr (Or.inl (char_toNat_inj h)))
    · exact Or.inr (Or.inr (Or.inr (Or.inl (char_toNat_inj h))))
    · exact Or.inr (Or.inr (Or.inr (Or.inr (Or.inl (char_toNat_inj h)))))
    · exact Or.inr (Or.inr (Or.inr (Or.inr (Or.inr (Or.inl
        (char_toNat_inj h))))))
    · exact Or.inr (Or.inr (Or.inr (Or.inr (Or.inr (Or.inr (Or.inl
        (char_toNat_inj h)))))))
    · exact Or.inr (Or.inr (Or.inr (Or.inr (Or.inr (Or.inr (Or.inr (Or.inl
        (char_toNat_inj h))))))))
    · exact Or.inr (Or.inr (Or.inr (Or.inr (Or.inr (Or.inr (Or.inr (Or.inr
        (Or.inl (char_toNat_inj h)))))))))
    · exact Or.inr (Or.inr (Or.inr (Or.inr (Or.inr (Or.inr (Or.inr (Or.inr
        (Or.inr (char_toNat_inj h)))))))))
  rcases hc with h | h | h | h | h | h | h | h | h | h <;> (subst h; decide)

theorem dropWhile_eq_self_of_all {p : Char → Bool} :
    ∀ (l : List Char), (∀ c ∈ l, p c = false) → l.dropWhile p = l := by
  intro l h
  cases l with
  | nil => rfl
  | cons c cs =>
    rw [List.dropWhile_cons, if_neg (by simp [h c (List.mem_cons_self c cs)])]

theorem stripL_of_no_ws (l : List Char) (h : ∀ c ∈ l, isPyWs c = false) :
    pyStripL l = l := by
  unfold pyStripL
  rw [dropWhile_eq_self_of_all l h,
    dropWhile_eq_self_of_all l.reverse (fun c hc => h c (List.mem_reverse.mp hc)),
    List.reverse_reverse]

theorem pyIntGo_digits : ∀ (cs : List Char) (acc : Nat),
    (∀ c ∈ cs, c.isDigit = true) →
    pyIntDigits.pyIntGo cs acc
      = some (cs.foldl (fun a c => 10 * a + (c.toNat - 48)) acc) := by
  intro cs
  induction cs with
  | nil => intro acc _; rfl
  | cons c0 cs ih =>
    intro acc h
    have hd := h c0 (by simp)
    have hne : (c0 == '_') = false :=
      beq_eq_false_iff_ne.mpr
        (fun e => by rw [e] at hd; exact absurd hd (by decide))
    unfold pyIntDigits.pyIntGo
    simp only [hne, Bool.false_eq_true, if_false, hd, if_true]
    rw [ih _ (fun c hc => h c (by simp [hc]))]
    rfl

theorem pyInt_digits (s : String) (hne : s.toList ≠ [])
    (hd : ∀ c ∈ s.toList, c.isDigit = true) :
    pyInt s = .ok ((parseNat s.toList : Nat) : Int) := by
  have hst : pyStripL s.toList = s.toList :=
    stripL_of_no_ws _ (fun c hc => isPyWs_of_digit c (hd c hc))
  unfold pyInt
  split
  · next cs heq =>
    rw [hst] at heq
    exact absurd (hd '+' (by rw [heq]; simp)) (by decide)
  · next cs heq =>
    rw [hst] at heq
    exact absurd (hd '-' (by rw [heq]; simp)) (by decide)
  · rw [hst]
    cases hl : s.toList with
    | nil => exact absurd hl hne
    | cons c0 cs =>
      have hd0 : c0.isDigit = true := hd c0 (by rw [hl]; simp)
      have hDigits : pyIntDigits (c0 :: cs) = some (parseNat (c0 :: cs)) := by
        show (if c0.isDigit = true then pyIntDigits.pyIntGo cs (c0.toNat - 48)
          else none) = some (parseNat (c0 :: cs))
        rw [if_pos hd0,
          pyIntGo_digits cs _ (fun c hc => hd c (by rw [hl]; simp [hc]))]
        congr 1
        simp [parseNat]
      rw [hDigits]

theorem parseNat_ofDigits : ∀ cs : List Char,
    parseNat cs
      = Nat.ofDigits 10 ((cs.map (fun c => c.toNat - 48)).reverse) := by
  intro cs
  induction cs using List.reverseRecOn with
  | nil => simp [parseNat, Nat.ofDigits]
  | append_singleton ds c ih =>
    have h1 : parseNat (ds ++ [c]) = 10 * parseNat ds + (c.toNat - 48) := by
      unfold parseNat
      rw [List.foldl_append]
      rfl
    rw [h1, List.map_append, List.reverse_append, ih]
    simp [Nat.ofDigits_cons]
    omega

theorem natChars_parseNat : ∀ (cs : List Char), cs ≠ [] →
    (∀ c ∈ cs, c.isDigit = true) →
    (∀ c0 cs2, cs = c0 :: cs2 → cs2 ≠ [] → c0 ≠ '0') →
    natChars (parseNat cs) = cs := by
  intro cs hne hd hlead
  cases cs with
  | nil => exact absurd rfl hne
  | cons c0 cs2 =>
    have hd0 : c0.isDigit = true := hd c0 (by simp)
    obtain ⟨hb1, hb2⟩ := digit_bounds c0 hd0
    cases cs2 with
    | nil =>
      have hp : parseNat [c0] = c0.toNat - 48 := by simp [parseNat]
      by_cases hz : c0.toNat - 48 = 0
      · have h48 : c0.toNat = 48 := by omega
        have hc0 : c0 = '0' := char_toNat_inj (by rw [h48]; rfl)
        rw [hp, hz, hc0]
        rfl
      · rw [hp]
        unfold natChars
        rw [if_neg hz,
          Nat.digits_def' (by norm_num : (1 : ℕ) < 10) (Nat.pos_of_ne_zero hz),
          Nat.mod_eq_of_lt (by omega), Nat.div_eq_of_lt (by omega)]
        simp [digitChar_dval c0 hd0]
    | cons c1 cs3 =>
      have hc0 : c0 ≠ '0' := hlead c0 (c1 :: cs3) rfl (by simp)
      have hv0 : c0.toNat - 48 ≠ 0 := by
        intro hz
        have h48 : c0.toNat = 48 := by omega
        exact hc0 (char_toNat_inj (by rw [h48]; rfl))
      have hofd := parseNat_ofDigits (c0 :: c1 :: cs3)
      have hlt : ∀ l ∈ (((c0 :: c1 :: cs3).map
          (fun c => c.toNat - 48)).reverse), l < 10 := by
        intro l hl
        rw [List.mem_reverse] at hl
        obtain ⟨c, hc, rfl⟩ := List.mem_map.mp hl
        obtain ⟨g1, g2⟩ := digit_bounds c (hd c hc)
        omega
      have hlast : ∀ h : (((c0 :: c1 :: cs3).map
          (fun c => c.toNat - 48)).reverse) ≠ [],
          (((c0 :: c1 :: cs3).map
            (fun c => c.toNat - 48)).reverse).getLast h ≠ 0 := by
        intro h
        rw [List.getLast_reverse]
        simpa using hv0
      have hdig := Nat.digits_ofDigits 10 (by norm_num) _ hlt hlast
      have hne0 : parseNat (c0 :: c1 :: cs3) ≠ 0 := by
        intro hz
        rw [hofd] at hz
        rw [hz] at hdig
        simp at hdig
      unfold natChars
      rw [if_neg hne0, hofd, hdig]
      rw [List.map_reverse, List.reverse_reverse, List.map_map]
      have hpt : ∀ c ∈ c0 :: c1 :: cs3,
          (digitChar ∘ fun c => c.toNat - 48) c = id c :=
        fun c hc => digitChar_dval c (hd c hc)
      rw [List.map_congr_left hpt, List.map_id]

/-- Claim C9, amended: for a `uint256` spec and every non-negative
integer numeral without leading zeros (a digit string that is `"0"` or
starts with a nonzero digit), coercion followed by Python `str()`
round-trips to the original input. -/
theorem claim_C9_uint_roundtrip (ck : String → Except String String)
    (nm s : String) (hne : s.toList ≠ [])
    (hd : ∀ c ∈ s.toList, c.isDigit = true)
    (hlead : ∀ c0 cs2, s.toList = c0 :: cs2 → cs2 ≠ [] → c0 ≠ '0') :
    ∃ n : Nat, convert_args ck [⟨nm, "uint256"⟩] [s] = .ok [.int (n : Int)]
      ∧ pyStrOfInt (n : Int) = s := by
  refine ⟨parseNat s.toList, ?_, ?_⟩
  · have hsw : (pyStartsWith "uint256" "uint"
        || pyStartsWith "uint256" "int") = true := by decide
    have hpy := pyInt_digits s hne hd
    simp [convert_args, convertLoop, convertOne, hsw, hpy]
  · unfold pyStrOfInt
    rw [if_neg (by omega)]
    rw [Int.toNat_natCast, natChars_parseNat s.toList hne hd hlead]
    rfl

/-- Witness for C9 at the concrete numeral `42`. -/
theorem claim_C9_witness :
    ∃ n : Nat, convert_args ckId [⟨"amount", "uint256"⟩] ["42"]
        = .ok [.int (n : Int)]
      ∧ pyStrOfInt (n : Int) = "42" :=
  claim_C9_uint_roundtrip ckId "amount" "42" (by decide) (by decide)
    (by
      intro c0 cs2 h _
      have h2 : ('4' :: ['2'] : List Char) = c0 :: cs2 := h
      injection h2 with h3 h4
      rw [← h3]
      decide)

/-- Counterexample to C9 as stated: the integer literal `00` (a valid
Python integer literal denoting zero) coerces to `0`, whose string form
is `"0"`, not `"00"` — the round-trip fails on numerals with leading
zeros. -/
theorem claim_C9_counterexample :
    convert_args ckId [⟨"v", "uint256"⟩] ["00"] = .ok [.int 0]
    ∧ pyStrOfInt 0 = "0"
    ∧ ("0" : String) ≠ "00" := by
  refine ⟨rfl, ?_, by decide⟩
  rfl

end PolyPlat
